import Mathlib

/-!
Shallow embedding of salt/utils/process.py (process-supervision and
worker-pool utilities): the scoped signal helper default_signals, the
ThreadPool, and the ProcessManager with its add_process, restart_process,
stop_restarting, send_signal_to_processes, check_children and
kill_children operations.  Machine-level effects (the OS signal table,
process liveness, os.kill outcomes, fresh pids) are passed explicitly as
state or as oracle parameters.
-/

namespace SaltProcess

/-- Signal numbers, as plain naturals (SIGINT = 2, SIGKILL = 9, SIGTERM = 15). -/
abbrev Signum := Nat

def SIGINT : Signum := 2
def SIGKILL : Signum := 9
def SIGTERM : Signum := 15

/-- errno values used by the source: ESRCH = 3 (no such process),
EACCES = 13 (permission denied). -/
def ESRCH : Nat := 3

def EACCES : Nat := 13

/-- A Python-level signal disposition as returned by signal.getsignal:
None (a handler not set from Python), SIG_DFL, SIG_IGN, or a Python
callable (identified by an id).  Only the callable case is callable. -/
inductive PyHandler
  | pyNone
  | sigDfl
  | sigIgn
  | callable (id : Nat)
  deriving DecidableEq, Repr

/-- Python callable(h) on a disposition: only an actual function handler. -/
def PyHandler.isCallable : PyHandler → Bool
  | .callable _ => true
  | _ => false

/-- The signal table of the current process: signum to disposition. -/
def SigTable := Signum → PyHandler

/-- signal.signal(s, h) on the table: update one entry. -/
def setSig (t : SigTable) (s : Signum) (h : PyHandler) : SigTable :=
  fun x => if x = s then h else t x

/-- State seen by default_signals: the signal table plus, for each signum,
whether signal.signal would succeed (it raises ValueError when invoked off
the main thread or on an invalid signum). -/
structure SigState where
  table : SigTable
  canRegister : Signum → Bool

/-- The save-and-swap loop at the start of default_signals: for each signum,
try saving the current disposition and installing SIG_DFL; on ValueError
trace-log and skip, otherwise record the saved disposition in old_signals
(insertion order).  Returns the updated state and old_signals. -/
def saveSignals : List Signum → SigState → SigState × List (Signum × PyHandler)
  | [], st => (st, [])
  | s :: rest, st =>
    if st.canRegister s then
      let saved := st.table s
      let st1 : SigState := { st with table := setSig st.table s PyHandler.sigDfl }
      let (st2, olds) := saveSignals rest st1
      (st2, (s, saved) :: olds)
    else
      saveSignals rest st

/-- The restore loop at the end of default_signals: for signum in old_signals
(insertion order), signal.signal(signum, old_signals[signum]). -/
def restoreSignals (olds : List (Signum × PyHandler)) (t : SigTable) : SigTable :=
  olds.foldl (fun acc p => setSig acc p.1 p.2) t

/-- Outcome of the with-block body: normal return, or an exception raised. -/
inductive BodyResult
  | normal
  | raises
  deriving DecidableEq, Repr

/-- The default_signals context manager.  It is a contextlib.contextmanager
generator whose yield is NOT wrapped in try/finally: when the body raises,
contextlib throws the exception into the generator at the yield point, the
generator does not catch it, and the restore loop after the yield never
runs; the exception propagates (the returned Bool is false).  Only on a
normal body exit does the restore loop run, over old_signals in insertion
order. -/
def default_signals (signals : List Signum) (st : SigState) (body : BodyResult) :
    SigState × Bool :=
  let (st1, old_signals) := saveSignals signals st
  match body with
  | .normal => ({ st1 with table := restoreSignals old_signals st1.table }, true)
  | .raises => (st1, false)

/-! ## ThreadPool -/

/-- A task as enqueued by fire_async: a callable id, positional args and
keyword args (argument values modeled as naturals). -/
structure Task where
  func : Nat
  args : List Nat
  kwargs : List (String × Nat)
  deriving DecidableEq, Repr

/-- The pool state relevant to the queue: queue_size as given to
queue.Queue (an int; a value of 0 or less means unbounded) and the FIFO
job queue contents (front of the list is the head of the queue). -/
structure ThreadPool where
  queue_size : Int
  job_queue : List Task
  deriving DecidableEq, Repr

/-- queue.Queue.put_nowait: with a positive maxsize, raises Full (here:
returns none) when the queue already holds at least maxsize items;
otherwise appends the item. -/
def put_nowait (p : ThreadPool) (t : Task) : Option ThreadPool :=
  if 0 < p.queue_size ∧ p.queue_size ≤ (p.job_queue.length : Int) then
    none
  else
    some { p with job_queue := p.job_queue ++ [t] }

/-- ThreadPool.fire_async: default args to [] and kwargs to {}, then
put_nowait the task; return true on success and false when the queue is
full (queue.Full is caught).  The underlying call is put_nowait, so the
operation never blocks. -/
def fire_async (p : ThreadPool) (func : Nat) (args : Option (List Nat))
    (kwargs : Option (List (String × Nat))) : Bool × ThreadPool :=
  let a := args.getD []
  let k := kwargs.getD []
  match put_nowait p { func := func, args := a, kwargs := k } with
  | some p1 => (true, p1)
  | none => (false, p)

/-- Result of invoking a dequeued task.  Python class hierarchy: ok means a
normal return, exc means an exception deriving from Exception, baseExc
means a BaseException that does not derive from Exception (SystemExit,
KeyboardInterrupt). -/
inductive RunResult
  | ok
  | exc
  | baseExc
  deriving DecidableEq, Repr

/-- Outcome of one iteration of the worker loop body: the loop continues
(logged records whether a debug record with traceback was emitted), or the
iteration raised out of the while-loop, terminating the thread. -/
inductive StepOutcome
  | cont (logged : Bool)
  | terminated
  deriving DecidableEq, Repr

/-- One iteration of ThreadPool._thread_target, with the outcome of running
each task given by the oracle run.  An empty queue is the queue.Empty
timeout path: continue.  A dequeued task is removed, then invoked; the
except clause catches Exception only, logging at debug with traceback and
continuing; a BaseException outside Exception propagates and ends the
loop. -/
def thread_step (run : Task → RunResult) (q : List Task) :
    List Task × StepOutcome :=
  match q with
  | [] => ([], .cont false)
  | t :: rest =>
    match run t with
    | .ok => (rest, .cont false)
    | .exc => (rest, .cont true)
    | .baseExc => (rest, .terminated)

/-! ## ProcessManager: data model -/

/-- The shape of a target handed to add_process: either a class (a subclass
of multiprocessing.Process; isMPP marks subclasses of
MultiprocessingProcess, signalHandling marks subclasses of
SignalHandlingMultiprocessingProcess), or a plain function. -/
inductive Tgt
  | procClass (id : Nat) (isMPP : Bool) (signalHandling : Bool)
  | func (id : Nat)
  deriving DecidableEq, Repr

/-- type(multiprocessing.Process) is type(tgt) and
issubclass(tgt, multiprocessing.Process). -/
def tgtIsProcessClass : Tgt → Bool
  | .procClass _ _ _ => true
  | .func _ => false

/-- type(MultiprocessingProcess) is type(tgt) and
issubclass(tgt, MultiprocessingProcess). -/
def tgtIsMPPClass : Tgt → Bool
  | .procClass _ isMPP _ => isMPP
  | .func _ => false

/-- Whether the process constructed from the target is an instance of
SignalHandlingMultiprocessingProcess. -/
def tgtSignalHandling : Tgt → Bool
  | .procClass _ _ sh => sh
  | .func _ => false

/-- Argument and keyword-argument values: opaque atoms, a target reference
(the wrapped args hold the target itself), an opts mapping, or a logging
queue reference. -/
inductive Val
  | nat (n : Nat)
  | tgtv (t : Tgt)
  | optsv (o : List (String × Nat))
  | qref (id : Nat)
  deriving DecidableEq, Repr

/-- Association-list lookup of the first binding of a key (Python dict
access). -/
def alistGet? {κ α : Type} [DecidableEq κ] : List (κ × α) → κ → Option α
  | [], _ => none
  | p :: rest, k => if p.1 = k then some p.2 else alistGet? rest k

/-- Association-list update: replace the first binding of the key, or
append a new binding (Python dict assignment). -/
def alistSet {κ α : Type} [DecidableEq κ] : List (κ × α) → κ → α → List (κ × α)
  | [], k, v => [(k, v)]
  | p :: rest, k, v => if p.1 = k then (k, v) :: rest else p :: alistSet rest k v

/-- Association-list removal of every binding of the key (Python dict
del / pop; dict keys are unique). -/
def alistDel {κ α : Type} [DecidableEq κ] (l : List (κ × α)) (k : κ) : List (κ × α) :=
  l.filter (fun p => p.1 ≠ k)

/-- kwargs.get(k_opts, {}): the opts mapping stored under the reserved
key, defaulting to empty.  Only opts-typed values are modeled under this
key. -/
def getOptsVal (kw : List (String × Val)) : List (String × Nat) :=
  match alistGet? kw "_opts" with
  | some (Val.optsv o) => o
  | _ => []

/-- The process handle produced by starting a child: its OS pid, whether
the target was wrapped in a generic multiprocessing.Process running
ProcessManager.run_function (wrapped = true) or constructed directly from
the target class, the positional and keyword arguments the process was
started with, and whether the instance is a
SignalHandlingMultiprocessingProcess. -/
structure ProcHandle where
  pid : Nat
  wrapped : Bool
  runArgs : List Val
  runKwargs : List (String × Val)
  signalHandling : Bool
  deriving DecidableEq, Repr

/-- One entry of the supervisor process map: tgt, args, kwargs, the
Process handle, and the recorded opts. -/
structure Entry where
  tgt : Tgt
  args : List Val
  kwargs : List (String × Val)
  process : ProcHandle
  opts : List (String × Nat)
  deriving DecidableEq, Repr

/-- The ProcessManager state.  The process map is an insertion-ordered
association list keyed by pid (a Python dict).  log_queue and
log_queue_level are the optional instance attributes consulted by the
Windows branch of add_process (the base class never sets them). -/
structure ProcessManager where
  _process_map : List (Nat × Entry)
  _pid : Nat
  _sigterm_handler : PyHandler
  _restart_processes : Bool
  wait_for_kill : Nat
  log_queue : Option Nat
  log_queue_level : Option Nat
  deriving DecidableEq, Repr

/-- ProcessManager.__init__: empty map, owner pid and the prior SIGTERM
disposition captured at construction, restarting enabled. -/
def newProcessManager (pid : Nat) (prior : PyHandler) (wait : Nat) : ProcessManager :=
  { _process_map := []
    _pid := pid
    _sigterm_handler := prior
    _restart_processes := true
    wait_for_kill := wait
    log_queue := none
    log_queue_level := none }

/-- Log records emitted by the modeled operations (only those observed by
the claims): the restart info record of restart_process, the straggler
info records of a kill_children retry, and the final kill_children
warning listing the surviving pids. -/
inductive LogEvent
  | restartInfo (pid : Nat)
  | killRetryInfo (retriesLeft : Int)
  | killFailWarning (pids : List Nat)
  deriving DecidableEq, Repr

/-! ## ProcessManager: operations -/

/-- ProcessManager.add_process(tgt, args, kwargs, name).  args and kwargs
default to empty.  On Windows, for a MultiprocessingProcess subclass
target, log_queue and log_queue_level are filled into kwargs when absent
(from the instance attribute when set, else from the global logging
accessors, passed here as glQueue and glLevel).  For a Process-class
target the process is constructed directly from args and kwargs; for a
function target the reserved opts key is popped from kwargs and args is
rewrapped as (tgt, opts) + args, the target becoming run_function inside a
generic process.  The started process gets a fresh OS pid (newPid) and the
map records tgt together with the (transformed) args, kwargs, handle and
opts under that pid.  The derived debug name and the scoped
default_signals around the start of a signal-handling process only affect
logging and the signal table, not the map, and are not tracked here.
winLogKwargs below is the Windows log-queue propagation step of
add_process. -/
def winLogKwargs (is_windows : Bool) (glQueue glLevel : Nat) (st : ProcessManager)
    (tgt : Tgt) (kwargs : List (String × Val)) : List (String × Val) :=
  if is_windows = true ∧ tgtIsMPPClass tgt = true then
    let kwargs :=
      if (alistGet? kwargs "log_queue").isSome then kwargs
      else alistSet kwargs "log_queue" (Val.qref (st.log_queue.getD glQueue))
    if (alistGet? kwargs "log_queue_level").isSome then kwargs
    else alistSet kwargs "log_queue_level" (Val.nat (st.log_queue_level.getD glLevel))
  else kwargs

/-- The body of ProcessManager.add_process; see the comment on
winLogKwargs above. -/
def add_process (is_windows : Bool) (glQueue glLevel : Nat) (st : ProcessManager)
    (tgt : Tgt) (args0 : Option (List Val)) (kwargs0 : Option (List (String × Val)))
    (newPid : Nat) : ProcessManager × ProcHandle :=
  let args := args0.getD []
  let kwargs := winLogKwargs is_windows glQueue glLevel st tgt (kwargs0.getD [])
  let _opts := getOptsVal kwargs
  let startState :=
    if tgtIsProcessClass tgt then
      (args, kwargs,
        ({ pid := newPid, wrapped := false, runArgs := args, runKwargs := kwargs,
           signalHandling := tgtSignalHandling tgt } : ProcHandle))
    else
      let kw := alistDel kwargs "_opts"
      let ar :=
        if args.length = 0 then [Val.tgtv tgt, Val.optsv _opts]
        else [Val.tgtv tgt, Val.optsv _opts] ++ args
      (ar, kw,
        ({ pid := newPid, wrapped := true, runArgs := ar, runKwargs := kw,
           signalHandling := false } : ProcHandle))
  let process := startState.2.2
  let entry : Entry :=
    { tgt := tgt, args := startState.1, kwargs := startState.2.1,
      process := process, opts := _opts }
  ({ st with _process_map := alistSet st._process_map process.pid entry }, process)

/-- ProcessManager.restart_process(pid).  Returns immediately when
restarting is disabled.  Otherwise reads the record of pid (none models
the KeyError raised when pid is not in the map; the map is untouched at
that point), logs the death, joins the dead handle briefly, merges the
recorded opts back into the recorded kwargs under the reserved key when
non-empty, re-invokes add_process with the recorded tgt, args and those
kwargs, and finally deletes the old pid entry. -/
def restart_process (is_windows : Bool) (glQueue glLevel : Nat) (st : ProcessManager)
    (pid : Nat) (newPid : Nat) : Option (ProcessManager × List LogEvent) :=
  if st._restart_processes = false then
    some (st, [])
  else
    match alistGet? st._process_map pid with
    | none => none
    | some entry =>
      let kwargs := entry.kwargs
      let _opts := entry.opts
      let kwargs :=
        if _opts ≠ [] then alistSet kwargs "_opts" (Val.optsv _opts) else kwargs
      let st1 := (add_process is_windows glQueue glLevel st entry.tgt
        (some entry.args) (some kwargs) newPid).1
      some ({ st1 with _process_map := alistDel st1._process_map pid },
        [LogEvent.restartInfo pid])

/-- ProcessManager.stop_restarting. -/
def stop_restarting (st : ProcessManager) : ProcessManager :=
  { st with _restart_processes := false }

/-- The pid loop of send_signal_to_processes over a snapshot of the map
keys.  kill sig pid is the outcome of os.kill(pid, sig): none on success,
some errno on OSError.  ESRCH and EACCES are swallowed and the entry is
deleted; any other errno is re-raised (returned as some errno, together
with the map as mutated so far). -/
def send_signal_go (kill : Signum → Nat → Option Nat) (sig : Signum) :
    List Nat → ProcessManager → ProcessManager × Option Nat
  | [], st => (st, none)
  | pid :: rest, st =>
    match kill sig pid with
    | none => send_signal_go kill sig rest st
    | some e =>
      if e = ESRCH ∨ e = EACCES then
        send_signal_go kill sig rest
          { st with _process_map := alistDel st._process_map pid }
      else (st, some e)

/-- ProcessManager.send_signal_to_processes(signal_).  On Windows, for
SIGTERM or SIGINT, return immediately (no signal is sent, the map is
unchanged).  Otherwise iterate a copy of the map keys, sending the signal
to each pid and handling OSError as in send_signal_go. -/
def send_signal_to_processes (is_windows : Bool) (kill : Signum → Nat → Option Nat)
    (st : ProcessManager) (sig : Signum) : ProcessManager × Option Nat :=
  if is_windows = true ∧ (sig = SIGTERM ∨ sig = SIGINT) then (st, none)
  else send_signal_go kill sig (st._process_map.map Prod.fst) st

/-- ProcessManager.check_children.  Acts only when restarting is enabled:
for each recorded pid whose Process handle is not alive (the alive
oracle), restart_process is invoked; newPid supplies the OS pid of each
replacement process.  The none branch of restart_process (a KeyError)
cannot fire for a pid of the snapshot and leaves the state unchanged. -/
def check_children (is_windows : Bool) (glQueue glLevel : Nat) (alive : Nat → Bool)
    (newPid : Nat → Nat) (st : ProcessManager) : ProcessManager × List LogEvent :=
  if st._restart_processes = true then
    (st._process_map.map Prod.fst).foldl
      (fun acc pid =>
        if alive pid then acc
        else
          match restart_process is_windows glQueue glLevel acc.1 pid (newPid pid) with
          | some r => (r.1, acc.2 ++ r.2)
          | none => acc)
      (st, [])
  else (st, [])

/-- The machine context of one kill_children invocation: the platform, the
multiprocessing current-process name test, os.getpid(), and a liveness
oracle giving, for each recursion depth, which pids are still alive once
the terminate / graceful-join / SIGKILL phases of that pass have run (the
net effect of those time-driven phases on the map is the removal of the
entries reported dead). -/
structure KillEnv where
  is_windows : Bool
  is_main_process : Bool
  current_pid : Nat
  aliveAfterPass : Nat → Nat → Bool

/-- How a kill_children invocation ends: delegation to the prior callable
SIGTERM handler with the signal args, a KeyboardInterrupt raised by
invoking signal.default_int_handler, a plain return from a guard, or a
completed run of the phases. -/
inductive KillOutcome
  | delegated (handlerId : Nat) (args : List Nat)
  | keyboardInterrupt
  | returned
  | completed
  deriving DecidableEq, Repr

/-- ProcessManager.kill_children(*args, **kwargs), with the retry count of
kwargs passed explicitly (the top-level default is 3).  The first step
resets the SIGTERM and SIGINT dispositions to ignore (an effect on the
process signal table, not on this state).  Guard: in a process other than
the owner, delegate to the prior SIGTERM handler when it is callable;
when it is None, return; otherwise (a non-callable disposition such as
SIG_DFL or SIG_IGN) the code calls signal.default_int_handler, which
raises KeyboardInterrupt.  On Windows outside the main process, return.
Otherwise the terminate / graceful-wait / forced-kill phases run: their
net effect is that exactly the entries whose pid the depth-indexed oracle
reports dead are removed.  If survivors remain and retry is at least 0,
the straggler info records are logged and kill_children recurses with
retry - 1; once retries are exhausted a warning listing the survivors is
logged and the call returns without touching them further. -/
def kill_children (env : KillEnv) (depth : Nat) (st : ProcessManager)
    (args : List Nat) (retry : Int) : ProcessManager × KillOutcome × List LogEvent :=
  if env.current_pid ≠ st._pid then
    match st._sigterm_handler with
    | PyHandler.callable h => (st, .delegated h args, [])
    | PyHandler.pyNone => (st, .returned, [])
    | _ => (st, .keyboardInterrupt, [])
  else if env.is_windows = true ∧ env.is_main_process = false then
    (st, .returned, [])
  else
    let survivors := st._process_map.filter (fun p => env.aliveAfterPass depth p.1)
    let st1 := { st with _process_map := survivors }
    if survivors.isEmpty then (st1, .completed, [])
    else if h : 0 ≤ retry then
      let r := kill_children env (depth + 1) st1 args (retry - 1)
      (r.1, r.2.1, LogEvent.killRetryInfo retry :: r.2.2)
    else
      (st1, .completed, [LogEvent.killFailWarning (survivors.map Prod.fst)])
  termination_by (retry + 1).toNat
  decreasing_by omega

/-- kill_children as invoked without an explicit retry: the default retry
budget is 3. -/
def kill_children_default (env : KillEnv) (st : ProcessManager) (args : List Nat) :
    ProcessManager × KillOutcome × List LogEvent :=
  kill_children env 0 st args 3

/-! ## The public supervisor API as a step relation -/

/-- One invocation of a public ProcessManager operation, with the oracle
inputs it consumes. -/
inductive Op
  | addP (tgt : Tgt) (args : Option (List Val)) (kwargs : Option (List (String × Val)))
      (newPid : Nat)
  | restartP (pid : Nat) (newPid : Nat)
  | stopR
  | checkC (alive : Nat → Bool) (newPid : Nat → Nat)
  | sendSig (sig : Signum) (kill : Signum → Nat → Option Nat)
  | killC (env : KillEnv) (args : List Nat) (retry : Int)

/-- Apply one public operation to the supervisor state.  For restartP on a
missing pid, the KeyError propagates with the state unchanged at the
point of the raise. -/
def stepOp (is_windows : Bool) (glQueue glLevel : Nat) (st : ProcessManager) :
    Op → ProcessManager
  | .addP tgt a k newPid => (add_process is_windows glQueue glLevel st tgt a k newPid).1
  | .restartP pid newPid =>
    match restart_process is_windows glQueue glLevel st pid newPid with
    | some r => r.1
    | none => st
  | .stopR => stop_restarting st
  | .checkC alive newPid => (check_children is_windows glQueue glLevel alive newPid st).1
  | .sendSig sig kill => (send_signal_to_processes is_windows kill st sig).1
  | .killC env args retry => (kill_children env 0 st args retry).1

/-- Apply a sequence of public operations in order. -/
def runOps (is_windows : Bool) (glQueue glLevel : Nat) (st : ProcessManager)
    (ops : List Op) : ProcessManager :=
  ops.foldl (stepOp is_windows glQueue glLevel) st

/-- A sample supervisor state: a fresh POSIX manager (owner pid 1) after two
add_process calls for function targets, recorded at pids 7 and 8.  Used to
instantiate the general theorems at a concrete state. -/
def sampleManager : ProcessManager :=
  (add_process false 0 0
    ((add_process false 0 0 (newProcessManager 1 PyHandler.pyNone 1)
      (Tgt.func 0) none none 7).1)
    (Tgt.func 1) none none 8).1

/-! ## Shared lemmas -/

theorem alistGet?_set_self {κ α : Type} [DecidableEq κ] (l : List (κ × α)) (k : κ) (v : α) :
    alistGet? (alistSet l k v) k = some v := by
  induction l with
  | nil => simp [alistSet, alistGet?]
  | cons p rest ih =>
    by_cases h : p.1 = k
    · simp [alistSet, h, alistGet?]
    · simp [alistSet, h, alistGet?, ih]

theorem wrap_args_eq (x l : List Val) :
    (if l = [] then x else x ++ l) = x ++ l := by
  cases l <;> simp

theorem add_process_eq_class (w : Bool) (gq gl : Nat) (st : ProcessManager)
    (tgt : Tgt) (args0 : Option (List Val)) (kwargs0 : Option (List (String × Val)))
    (newPid : Nat) (hc : tgtIsProcessClass tgt = true) :
    add_process w gq gl st tgt args0 kwargs0 newPid
      = (let args := args0.getD []
         let kwargs := winLogKwargs w gq gl st tgt (kwargs0.getD [])
         let proc : ProcHandle := ⟨newPid, false, args, kwargs, tgtSignalHandling tgt⟩
         let entry : Entry := ⟨tgt, args, kwargs, proc, getOptsVal kwargs⟩
         ({ st with _process_map := alistSet st._process_map newPid entry }, proc)) := by
  simp [add_process, hc]

theorem add_process_eq_func (w : Bool) (gq gl : Nat) (st : ProcessManager)
    (tgt : Tgt) (args0 : Option (List Val)) (kwargs0 : Option (List (String × Val)))
    (newPid : Nat) (hc : tgtIsProcessClass tgt = false) :
    add_process w gq gl st tgt args0 kwargs0 newPid
      = (let kwargs := winLogKwargs w gq gl st tgt (kwargs0.getD [])
         let ar := [Val.tgtv tgt, Val.optsv (getOptsVal kwargs)] ++ args0.getD []
         let kw := alistDel kwargs "_opts"
         let proc : ProcHandle := ⟨newPid, true, ar, kw, false⟩
         let entry : Entry := ⟨tgt, ar, kw, proc, getOptsVal kwargs⟩
         ({ st with _process_map := alistSet st._process_map newPid entry }, proc)) := by
  cases hargs : args0.getD [] <;> simp [add_process, hc, hargs]

/-! ## C4: fire_async -/

/-- C4: fire_async never blocks (it is put_nowait behind the boolean): when
the queue has room (the pool is unbounded, or holds fewer than queue_size
items) it returns true and appends the task; when the bounded queue
already holds at least queue_size items it returns false and leaves the
pool unchanged. -/
theorem fire_async_spec (p : ThreadPool) (f : Nat) (a : Option (List Nat))
    (k : Option (List (String × Nat))) :
    ((p.queue_size ≤ 0 ∨ (p.job_queue.length : Int) < p.queue_size) →
      (fire_async p f a k).1 = true ∧
      (fire_async p f a k).2.job_queue
        = p.job_queue ++ [{ func := f, args := a.getD [], kwargs := k.getD [] }]) ∧
    (0 < p.queue_size → p.queue_size ≤ (p.job_queue.length : Int) →
      (fire_async p f a k).1 = false ∧ (fire_async p f a k).2 = p) := by
  constructor
  · intro h
    have hroom : ¬(0 < p.queue_size ∧ p.queue_size ≤ (p.job_queue.length : Int)) := by
      rcases h with h | h <;> omega
    simp [fire_async, put_nowait, hroom]
  · intro h1 h2
    simp [fire_async, put_nowait, h1, h2]

/-- C4 witness: a pool of capacity 2 holding one task accepts a
submission and appends it; the same pool holding two tasks rejects the
submission and is unchanged. -/
theorem fire_async_spec_witness :
    ((fire_async ⟨2, [⟨0, [], []⟩]⟩ 5 none none).1 = true ∧
      (fire_async ⟨2, [⟨0, [], []⟩]⟩ 5 none none).2.job_queue
        = [⟨0, [], []⟩] ++ [⟨5, [], []⟩]) ∧
    ((fire_async ⟨2, [⟨0, [], []⟩, ⟨1, [], []⟩]⟩ 5 none none).1 = false ∧
      (fire_async ⟨2, [⟨0, [], []⟩, ⟨1, [], []⟩]⟩ 5 none none).2
        = ⟨2, [⟨0, [], []⟩, ⟨1, [], []⟩]⟩) :=
  ⟨(fire_async_spec ⟨2, [⟨0, [], []⟩]⟩ 5 none none).1 (by decide),
   (fire_async_spec ⟨2, [⟨0, [], []⟩, ⟨1, [], []⟩]⟩ 5 none none).2 (by decide) (by decide)⟩

/-! ## C8: worker loop exception handling -/

/-- C8 counterexample: the except clause of _thread_target catches
Exception only, so a dequeued task that raises a BaseException outside
Exception (SystemExit, KeyboardInterrupt) terminates the worker loop
rather than being logged and swallowed. -/
theorem thread_step_baseExc_kills_loop :
    (thread_step (fun _ => RunResult.baseExc) [{ func := 0, args := [], kwargs := [] }]).2
      = StepOutcome.terminated ∧
    (∀ b : Bool, StepOutcome.terminated ≠ StepOutcome.cont b) := by decide

/-- C8 amended: a dequeued task whose invocation raises an exception
deriving from Exception is logged at debug level with traceback and the
loop continues; only a task raising a BaseException outside Exception can
terminate the loop. -/
theorem thread_step_exc_swallowed (run : Task → RunResult) (t : Task) (rest : List Task)
    (h : run t = RunResult.exc) :
    thread_step run (t :: rest) = (rest, StepOutcome.cont true) ∧
    ∀ u rest1, run u ≠ RunResult.baseExc →
      (thread_step run (u :: rest1)).2 ≠ StepOutcome.terminated := by
  refine ⟨by simp [thread_step, h], ?_⟩
  intro u rest1 hu
  cases hru : run u with
  | ok => simp [thread_step, hru]
  | exc => simp [thread_step, hru]
  | baseExc => exact absurd hru hu

/-- C8 amended witness: a queue holding one Exception-raising task steps
to the empty queue, logging and continuing. -/
theorem thread_step_exc_swallowed_witness :
    thread_step (fun _ => RunResult.exc) [{ func := 0, args := [], kwargs := [] }]
      = ([], StepOutcome.cont true) :=
  (thread_step_exc_swallowed (fun _ => RunResult.exc)
    { func := 0, args := [], kwargs := [] } [] rfl).1

/-! ## C10: restart_process disabled -/

/-- C10: when restarting is disabled, restart_process returns immediately
for every pid: no KeyError, no log record, no join, no new process, no
map mutation; the state is returned unchanged. -/
theorem restart_process_noop_when_disabled (w : Bool) (gq gl : Nat)
    (st : ProcessManager) (pid newPid : Nat)
    (h : st._restart_processes = false) :
    restart_process w gq gl st pid newPid = some (st, []) := by
  simp [restart_process, h]

/-- C10 witness: after stop_restarting on a fresh manager, restart_process
of an arbitrary pid is an observable no-op. -/
theorem restart_process_noop_witness :
    restart_process false 0 0 (stop_restarting (newProcessManager 1 PyHandler.pyNone 1)) 5 6
      = some (stop_restarting (newProcessManager 1 PyHandler.pyNone 1), []) :=
  restart_process_noop_when_disabled false 0 0
    (stop_restarting (newProcessManager 1 PyHandler.pyNone 1)) 5 6 (by decide)

/-! ## C1: default_signals does not restore when the body raises -/

/-- C1: with every swap succeeding and a body that raises, default_signals
leaves the swapped signals at SIG_DFL: the restore loop sits after the
bare yield of the generator and never runs on an exceptional exit, though
the same scope with a normally returning body does restore the saved
disposition. -/
theorem default_signals_no_restore_on_raise :
    (default_signals [SIGINT, SIGTERM]
        ⟨fun _ => PyHandler.callable 7, fun _ => true⟩ BodyResult.raises).2 = false ∧
    (default_signals [SIGINT, SIGTERM]
        ⟨fun _ => PyHandler.callable 7, fun _ => true⟩ BodyResult.raises).1.table SIGINT
      = PyHandler.sigDfl ∧
    (default_signals [SIGINT, SIGTERM]
        ⟨fun _ => PyHandler.callable 7, fun _ => true⟩ BodyResult.raises).1.table SIGTERM
      = PyHandler.sigDfl ∧
    PyHandler.sigDfl ≠ PyHandler.callable 7 ∧
    (default_signals [SIGINT, SIGTERM]
        ⟨fun _ => PyHandler.callable 7, fun _ => true⟩ BodyResult.normal).1.table SIGINT
      = PyHandler.callable 7 := by decide

/-! ## C2: restart_process re-wraps the recorded args -/

/-- C2: starting a function target records the wrapped args
(tgt, opts); restart_process feeds the recorded args back through
add_process, which wraps them again, so the replacement entry holds
(tgt, opts, tgt, opts) instead of the args of the removed entry. -/
theorem restart_process_rewraps_args :
    ((add_process false 0 0 (newProcessManager 1 PyHandler.pyNone 1)
        (Tgt.func 5) none none 100).1._process_map.map (fun p => (p.1, p.2.args)))
      = [(100, [Val.tgtv (Tgt.func 5), Val.optsv []])] ∧
    ((restart_process false 0 0
        ((add_process false 0 0 (newProcessManager 1 PyHandler.pyNone 1)
          (Tgt.func 5) none none 100).1) 100 101).map
        (fun r => r.1._process_map.map (fun p => (p.1, p.2.args))))
      = some [(101, [Val.tgtv (Tgt.func 5), Val.optsv [],
          Val.tgtv (Tgt.func 5), Val.optsv []])] := by decide

/-! ## C9: add_process registers the started process -/

/-- C9: add_process returns a handle whose pid is the fresh OS pid, that
pid is a key of the map when the call returns, and the entry under it
records the given target, the returned handle, and exactly the args and
kwargs the process was started with (for a Process-class target the given
args; for a function target the given args wrapped behind the target and
the recorded opts). -/
theorem add_process_registers (w : Bool) (gq gl : Nat) (st : ProcessManager)
    (tgt : Tgt) (args0 : Option (List Val)) (kwargs0 : Option (List (String × Val)))
    (newPid : Nat) :
    ((add_process w gq gl st tgt args0 kwargs0 newPid).2).pid = newPid ∧
    ∃ e : Entry,
      alistGet? ((add_process w gq gl st tgt args0 kwargs0 newPid).1)._process_map newPid
        = some e ∧
      e.tgt = tgt ∧
      e.process = (add_process w gq gl st tgt args0 kwargs0 newPid).2 ∧
      e.args = e.process.runArgs ∧
      e.kwargs = e.process.runKwargs ∧
      (tgtIsProcessClass tgt = true →
        e.args = args0.getD [] ∧ e.opts = getOptsVal e.kwargs) ∧
      (tgtIsProcessClass tgt = false →
        e.args = Val.tgtv tgt :: Val.optsv e.opts :: args0.getD []) := by
  by_cases hc : tgtIsProcessClass tgt = true
  · rw [add_process_eq_class w gq gl st tgt args0 kwargs0 newPid hc]
    refine ⟨rfl, _, alistGet?_set_self _ _ _, ?_, ?_, ?_, ?_, ?_, ?_⟩
    · rfl
    · rfl
    · rfl
    · rfl
    · intro _; exact ⟨rfl, rfl⟩
    · intro h; rw [hc] at h; cases h
  · have hc1 : tgtIsProcessClass tgt = false := by
      cases h : tgtIsProcessClass tgt
      · rfl
      · exact absurd h hc
    rw [add_process_eq_func w gq gl st tgt args0 kwargs0 newPid hc1]
    refine ⟨rfl, _, alistGet?_set_self _ _ _, ?_, ?_, ?_, ?_, ?_, ?_⟩
    · rfl
    · rfl
    · rfl
    · rfl
    · intro h; exact absurd h hc
    · intro _; rfl

/-! ## C3: kill_children from a non-owner pid -/

/-- C3 counterexample: in a child (current pid 2, owner pid 1) whose
supervisor captured the non-callable prior disposition SIG_DFL, the
non-owner guard of kill_children neither delegates nor returns: it calls
signal.default_int_handler, raising KeyboardInterrupt. -/
theorem kill_children_nonowner_raises :
    (kill_children ⟨false, true, 2, fun _ _ => false⟩ 0
        (newProcessManager 1 PyHandler.sigDfl 1) [] 3).2.1
      = KillOutcome.keyboardInterrupt ∧
    KillOutcome.keyboardInterrupt ≠ KillOutcome.returned ∧
    (∀ hid a, KillOutcome.keyboardInterrupt ≠ KillOutcome.delegated hid a) := by
  refine ⟨?_, by simp, by intro hid a hx; cases hx⟩
  rw [kill_children.eq_def]
  norm_num [newProcessManager]

/-- C3 amended: a kill_children invocation in a process other than the
owner never touches the supervisor state (in particular the process map)
and emits no log record; it delegates to the prior SIGTERM handler when
that handler is callable, returns when the prior handler is None, and
raises KeyboardInterrupt via signal.default_int_handler when the prior
handler is a non-callable disposition such as SIG_DFL or SIG_IGN. -/
theorem kill_children_nonowner_spec (env : KillEnv) (depth : Nat)
    (st : ProcessManager) (args : List Nat) (retry : Int)
    (h : env.current_pid ≠ st._pid) :
    (kill_children env depth st args retry).1 = st ∧
    (kill_children env depth st args retry).2.2 = [] ∧
    (∀ hid, st._sigterm_handler = PyHandler.callable hid →
      (kill_children env depth st args retry).2.1 = KillOutcome.delegated hid args) ∧
    (st._sigterm_handler = PyHandler.pyNone →
      (kill_children env depth st args retry).2.1 = KillOutcome.returned) ∧
    (st._sigterm_handler ≠ PyHandler.pyNone →
      st._sigterm_handler.isCallable = false →
      (kill_children env depth st args retry).2.1 = KillOutcome.keyboardInterrupt) := by
  rw [kill_children.eq_def, if_pos h]
  cases hh : st._sigterm_handler <;>
    simp [hh, PyHandler.isCallable]

/-- C3 amended witness: with owner pid 1, current pid 2 and a callable
prior handler, kill_children leaves the state unchanged and delegates. -/
theorem kill_children_nonowner_witness :
    (kill_children ⟨false, true, 2, fun _ _ => false⟩ 0
        (newProcessManager 1 (PyHandler.callable 4) 1) [] 3).1
      = newProcessManager 1 (PyHandler.callable 4) 1 ∧
    (kill_children ⟨false, true, 2, fun _ _ => false⟩ 0
        (newProcessManager 1 (PyHandler.callable 4) 1) [] 3).2.1
      = KillOutcome.delegated 4 [] := by
  have hspec := kill_children_nonowner_spec ⟨false, true, 2, fun _ _ => false⟩ 0
    (newProcessManager 1 (PyHandler.callable 4) 1) [] 3 (by decide)
  exact ⟨hspec.1, hspec.2.2.1 4 rfl⟩

/-! ## C5: send_signal_to_processes -/

theorem send_signal_go_all_swallowed (kill : Signum → Nat → Option Nat) (sig : Signum) :
    ∀ (pids : List Nat) (st : ProcessManager),
      (∀ pid ∈ pids, ∀ e, kill sig pid = some e → e = ESRCH ∨ e = EACCES) →
      send_signal_go kill sig pids st
        = ({ st with _process_map := st._process_map.filter (fun p => !(pids.contains p.1 && (kill sig p.1).isSome)) }, none) := by
  intro pids
  induction pids with
  | nil =>
    intro st _
    simp only [send_signal_go]
    have hf : st._process_map.filter
        (fun p => !(([] : List Nat).contains p.1 && (kill sig p.1).isSome))
        = st._process_map := by
      simp
    rw [hf]
  | cons pid rest ih =>
    intro st hsw
    cases hk : kill sig pid with
    | none =>
      simp only [send_signal_go, hk]
      rw [ih st (fun q hq e he => hsw q (List.mem_cons_of_mem _ hq) e he)]
      have hf : st._process_map.filter
            (fun p => !(rest.contains p.1 && (kill sig p.1).isSome))
          = st._process_map.filter
            (fun p => !((pid :: rest).contains p.1 && (kill sig p.1).isSome)) := by
        apply List.filter_congr
        intro p _
        by_cases hp : p.1 = pid
        · simp [hp, hk]
        · simp [hp]
      rw [hf]
    | some e =>
      have hse : e = ESRCH ∨ e = EACCES := hsw pid (List.mem_cons_self _ _) e hk
      simp only [send_signal_go, hk]
      rw [if_pos hse]
      rw [ih _ (fun q hq e1 he => hsw q (List.mem_cons_of_mem _ hq) e1 he)]
      have hf : (alistDel st._process_map pid).filter
            (fun p => !(rest.contains p.1 && (kill sig p.1).isSome))
          = st._process_map.filter
            (fun p => !((pid :: rest).contains p.1 && (kill sig p.1).isSome)) := by
        unfold alistDel
        rw [List.filter_filter]
        apply List.filter_congr
        intro p _
        by_cases hp : p.1 = pid
        · simp [hp, hk]
        · simp [hp]
      rw [hf]

theorem send_signal_go_first_hard_error (kill : Signum → Nat → Option Nat) (sig : Signum)
    (pid0 : Nat) (e0 : Nat) (h0 : kill sig pid0 = some e0)
    (hh : ¬(e0 = ESRCH ∨ e0 = EACCES)) :
    ∀ (pre post : List Nat) (st : ProcessManager),
      (∀ pid ∈ pre, ∀ e, kill sig pid = some e → e = ESRCH ∨ e = EACCES) →
      (send_signal_go kill sig (pre ++ pid0 :: post) st).2 = some e0 := by
  intro pre
  induction pre with
  | nil =>
    intro post st _
    simp [send_signal_go, h0, hh]
  | cons pid rest ih =>
    intro post st hsw
    cases hk : kill sig pid with
    | none =>
      simp only [List.cons_append, send_signal_go, hk]
      exact ih post st (fun q hq e1 he => hsw q (List.mem_cons_of_mem _ hq) e1 he)
    | some e =>
      have hse : e = ESRCH ∨ e = EACCES := hsw pid (List.mem_cons_self _ _) e hk
      simp only [List.cons_append, send_signal_go, hk]
      rw [if_pos hse]
      exact ih post _ (fun q hq e1 he => hsw q (List.mem_cons_of_mem _ hq) e1 he)

/-- C5: on Windows, for SIGTERM or SIGINT, send_signal_to_processes is a
no-op (state unchanged, nothing raised, no signal sent).  On POSIX, when
every OS error produced by signalling a recorded pid is ESRCH or EACCES,
the call returns normally and the map keeps exactly the entries whose pid
was signalled without error (the errored ones are removed); and when the
first non-swallowable OS error occurs at some recorded pid, that errno
propagates to the caller. -/
theorem send_signal_to_processes_spec (kill : Signum → Nat → Option Nat)
    (st : ProcessManager) (sig : Signum) :
    ((sig = SIGTERM ∨ sig = SIGINT) →
      send_signal_to_processes true kill st sig = (st, none)) ∧
    ((∀ pid ∈ st._process_map.map Prod.fst, ∀ e, kill sig pid = some e →
        e = ESRCH ∨ e = EACCES) →
      send_signal_to_processes false kill st sig
        = ({ st with _process_map := st._process_map.filter (fun p => (kill sig p.1).isNone) }, none)) ∧
    (∀ pre pid0 post e0,
      st._process_map.map Prod.fst = pre ++ pid0 :: post →
      (∀ pid ∈ pre, ∀ e, kill sig pid = some e → e = ESRCH ∨ e = EACCES) →
      kill sig pid0 = some e0 → ¬(e0 = ESRCH ∨ e0 = EACCES) →
      (send_signal_to_processes false kill st sig).2 = some e0) := by
  refine ⟨?_, ?_, ?_⟩
  · intro hsig
    simp [send_signal_to_processes, hsig]
  · intro hsw
    simp only [send_signal_to_processes, Bool.false_eq_true, false_and, if_false]
    rw [send_signal_go_all_swallowed kill sig _ st hsw]
    have hf : st._process_map.filter
          (fun p => !((st._process_map.map Prod.fst).contains p.1
              && (kill sig p.1).isSome))
        = st._process_map.filter (fun p => (kill sig p.1).isNone) := by
      apply List.filter_congr
      intro p hp
      have hmem1 : p.1 ∈ st._process_map.map Prod.fst := List.mem_map_of_mem Prod.fst hp
      have hmem : (st._process_map.map Prod.fst).contains p.1 = true := by
        simpa using hmem1
      rw [hmem]
      cases kill sig p.1 <;> simp
    rw [hf]
  · intro pre pid0 post e0 hkeys hpre h0 hh
    simp only [send_signal_to_processes, Bool.false_eq_true, false_and, if_false]
    rw [hkeys]
    exact send_signal_go_first_hard_error kill sig pid0 e0 h0 hh pre post st hpre

/-- C5 witness: on Windows with SIGTERM the call is a no-op for the sample
two-child manager; on POSIX, with pid 7 reporting ESRCH and pid 8
signalled cleanly, the call succeeds and exactly the pid 7 entry is
filtered out; and with every kill reporting errno 99 the first error
propagates. -/
theorem send_signal_to_processes_witness :
    send_signal_to_processes true (fun _ pid => if pid = 7 then some ESRCH else none)
        sampleManager SIGTERM = (sampleManager, none) ∧
    send_signal_to_processes false (fun _ pid => if pid = 7 then some ESRCH else none)
        sampleManager SIGTERM
      = ({ sampleManager with _process_map := sampleManager._process_map.filter (fun p => (if p.1 = 7 then some ESRCH else none).isNone) }, none) ∧
    (send_signal_to_processes false (fun _ _ => some 99) sampleManager SIGTERM).2
      = some 99 := by
  refine ⟨?_, ?_, ?_⟩
  · exact (send_signal_to_processes_spec (fun _ pid => if pid = 7 then some ESRCH else none)
      sampleManager SIGTERM).1 (Or.inl rfl)
  · exact (send_signal_to_processes_spec (fun _ pid => if pid = 7 then some ESRCH else none)
      sampleManager SIGTERM).2.1 (by
        intro pid hp e he
        by_cases h7 : pid = 7
        · simp [h7] at he
          exact Or.inl he.symm
        · simp [h7] at he)
  · exact (send_signal_to_processes_spec (fun _ _ => some 99) sampleManager SIGTERM).2.2
      [] 7 [8] 99 (by decide)
      (fun pid hp => absurd hp (List.not_mem_nil pid)) rfl (by decide)

/-! ## Lemmas on kill_children and the public operations -/

theorem retryTrace_succ (retry : Int) (k : Nat) :
    (List.range (k + 1)).map (fun i => LogEvent.killRetryInfo (retry - (i : Nat)))
      = LogEvent.killRetryInfo retry
          :: (List.range k).map (fun i => LogEvent.killRetryInfo ((retry - 1) - (i : Nat))) := by
  rw [List.range_succ_eq_map, List.map_cons, List.map_map]
  refine congrArg₂ List.cons (by simp) ?_
  apply List.map_congr_left
  intro i _
  simp only [Function.comp]
  congr 1
  push_cast
  ring

theorem kill_children_fields (env : KillEnv) :
    ∀ (n : Nat) (retry : Int), (retry + 1).toNat = n →
    ∀ (depth : Nat) (st : ProcessManager) (args : List Nat),
      ((kill_children env depth st args retry).1)._restart_processes = st._restart_processes
        ∧ ((kill_children env depth st args retry).1)._pid = st._pid := by
  intro n
  induction n with
  | zero =>
    intro retry hr depth st args
    rw [kill_children.eq_def]
    by_cases hg : env.current_pid ≠ st._pid
    · rw [if_pos hg]
      cases st._sigterm_handler <;> exact ⟨rfl, rfl⟩
    · rw [if_neg hg]
      by_cases hw : env.is_windows = true ∧ env.is_main_process = false
      · rw [if_pos hw]; exact ⟨rfl, rfl⟩
      · rw [if_neg hw]
        have hretry : ¬(0 ≤ retry) := by omega
        by_cases hse : (st._process_map.filter (fun p => env.aliveAfterPass depth p.1)).isEmpty
        · simp [hse]
        · simp [hse, hretry]
  | succ n ih =>
    intro retry hr depth st args
    rw [kill_children.eq_def]
    by_cases hg : env.current_pid ≠ st._pid
    · rw [if_pos hg]
      cases st._sigterm_handler <;> exact ⟨rfl, rfl⟩
    · rw [if_neg hg]
      by_cases hw : env.is_windows = true ∧ env.is_main_process = false
      · rw [if_pos hw]; exact ⟨rfl, rfl⟩
      · rw [if_neg hw]
        by_cases hse : (st._process_map.filter (fun p => env.aliveAfterPass depth p.1)).isEmpty
        · simp [hse]
        · have hretry : 0 ≤ retry := by omega
          simp only [hse, hretry]
          have hrec := ih (retry - 1) (by omega) (depth + 1)
            { st with _process_map := st._process_map.filter (fun p => env.aliveAfterPass depth p.1) } args
          simp [hretry]
          exact ⟨hrec.1, hrec.2⟩

theorem kill_children_owner_aux (env : KillEnv) (args : List Nat) :
    ∀ (n : Nat) (retry : Int), (retry + 1).toNat = n →
    ∀ (depth : Nat) (st : ProcessManager),
      env.current_pid = st._pid →
      ¬(env.is_windows = true ∧ env.is_main_process = false) →
      ∃ k : Nat, k ≤ n ∧
        (kill_children env depth st args retry).2.1 = KillOutcome.completed ∧
        (((kill_children env depth st args retry).2.2
            = (List.range k).map (fun i => LogEvent.killRetryInfo (retry - (i : Nat))) ∧
          (kill_children env depth st args retry).1._process_map = [])
        ∨
        ((kill_children env depth st args retry).2.2
            = (List.range k).map (fun i => LogEvent.killRetryInfo (retry - (i : Nat)))
              ++ [LogEvent.killFailWarning ((kill_children env depth st args retry).1._process_map.map Prod.fst)] ∧
          (kill_children env depth st args retry).1._process_map ≠ [] ∧ k = n)) := by
  intro n
  induction n with
  | zero =>
    intro retry hr depth st h1 h2
    have hg : ¬(env.current_pid ≠ st._pid) := by simp [h1]
    have hretry : ¬(0 ≤ retry) := by omega
    rw [kill_children.eq_def, if_neg hg, if_neg h2]
    simp only []
    by_cases hse : (st._process_map.filter (fun p => env.aliveAfterPass depth p.1)).isEmpty = true
    · rw [if_pos hse]
      exact ⟨0, le_refl 0, rfl, Or.inl ⟨rfl, by simpa [List.isEmpty_iff] using hse⟩⟩
    · rw [if_neg hse, dif_neg hretry]
      refine ⟨0, le_refl 0, rfl, Or.inr ⟨rfl, ?_, rfl⟩⟩
      intro hnil
      have hnil1 : List.filter (fun p => env.aliveAfterPass depth p.1) st._process_map = [] := hnil
      exact hse (by rw [hnil1]; rfl)
  | succ n ih =>
    intro retry hr depth st h1 h2
    have hg : ¬(env.current_pid ≠ st._pid) := by simp [h1]
    rw [kill_children.eq_def, if_neg hg, if_neg h2]
    simp only []
    by_cases hse : (st._process_map.filter (fun p => env.aliveAfterPass depth p.1)).isEmpty = true
    · rw [if_pos hse]
      exact ⟨0, Nat.zero_le _, rfl, Or.inl ⟨rfl, by simpa [List.isEmpty_iff] using hse⟩⟩
    · have hretry : 0 ≤ retry := by omega
      rw [if_neg hse, dif_pos hretry]
      obtain ⟨k, hk, houtcome, hcases⟩ := ih (retry - 1) (by omega) (depth + 1)
        { st with _process_map := st._process_map.filter (fun p => env.aliveAfterPass depth p.1) } h1 h2
      refine ⟨k + 1, by omega, houtcome, ?_⟩
      rcases hcases with ⟨hlog, hmap⟩ | ⟨hlog, hmap, hkn⟩
      · refine Or.inl ⟨?_, hmap⟩
        show LogEvent.killRetryInfo retry :: _ = _
        rw [retryTrace_succ, hlog]
      · refine Or.inr ⟨?_, hmap, by omega⟩
        show LogEvent.killRetryInfo retry :: _ = _
        rw [retryTrace_succ, hlog, List.cons_append]

theorem send_signal_go_fields (kill : Signum → Nat → Option Nat) (sig : Signum) :
    ∀ (pids : List Nat) (st : ProcessManager),
      ((send_signal_go kill sig pids st).1)._restart_processes = st._restart_processes := by
  intro pids
  induction pids with
  | nil => intro st; rfl
  | cons pid rest ih =>
    intro st
    cases hk : kill sig pid with
    | none =>
      simp only [send_signal_go, hk]
      exact ih st
    | some e =>
      simp only [send_signal_go, hk]
      by_cases hse : e = ESRCH ∨ e = EACCES
      · rw [if_pos hse]
        exact ih _
      · rw [if_neg hse]

theorem stepOp_keeps_flag_off (w : Bool) (gq gl : Nat) (st : ProcessManager) (op : Op)
    (h : st._restart_processes = false) :
    (stepOp w gq gl st op)._restart_processes = false := by
  cases op with
  | addP tgt a k newPid => exact h
  | restartP pid newPid => simp [stepOp, restart_process, h]
  | stopR => exact rfl
  | checkC alive newPid => simp [stepOp, check_children, h]
  | sendSig sig kill =>
    simp only [stepOp, send_signal_to_processes]
    split
    · exact h
    · exact (send_signal_go_fields kill sig _ st).trans h
  | killC env args retry =>
    exact ((kill_children_fields env (retry + 1).toNat retry rfl 0 st args).1).trans h

theorem runOps_keeps_flag_off (w : Bool) (gq gl : Nat) :
    ∀ (ops : List Op) (st : ProcessManager), st._restart_processes = false →
      (runOps w gq gl st ops)._restart_processes = false := by
  intro ops
  induction ops with
  | nil => intro st h; exact h
  | cons op rest ih =>
    intro st h
    exact ih _ (stepOp_keeps_flag_off w gq gl st op h)

/-! ## C6: stop_restarting is permanent -/

/-- C6: after stop_restarting, the restart flag stays false across any
sequence of public supervisor operations (none of them re-enables it), and
check_children on any such later state is an exact no-op: the state is
returned unchanged and no restart record is logged, so no dead child is
restarted and no map entry is replaced. -/
theorem stop_restarting_permanent (w : Bool) (gq gl : Nat) (st : ProcessManager)
    (ops : List Op) (alive : Nat → Bool) (newPid : Nat → Nat) :
    (runOps w gq gl (stop_restarting st) ops)._restart_processes = false ∧
    check_children w gq gl alive newPid (runOps w gq gl (stop_restarting st) ops)
      = (runOps w gq gl (stop_restarting st) ops, []) := by
  have hflag := runOps_keeps_flag_off w gq gl ops (stop_restarting st) rfl
  exact ⟨hflag, by simp [check_children, hflag]⟩

/-! ## C7: kill_children retry logic and termination -/

/-- C7: a kill_children invocation by the owner always terminates after a
bounded number of passes: some k at most retry + 1 retries are logged with
retriesLeft decrementing from retry by one each recursion (the top-level
call uses the default budget 3); the run completes either with an emptied
map and exactly those retry records, or, when retries are exhausted with
survivors remaining, with a final warning record listing the surviving
pids, which stay in the map and see no further processing. -/
theorem kill_children_retry_spec (env : KillEnv) (st : ProcessManager)
    (args : List Nat) (retry : Int) (depth : Nat)
    (h1 : env.current_pid = st._pid)
    (h2 : ¬(env.is_windows = true ∧ env.is_main_process = false)) :
    kill_children_default env st args = kill_children env 0 st args 3 ∧
    ∃ k : Nat, k ≤ (retry + 1).toNat ∧
      (kill_children env depth st args retry).2.1 = KillOutcome.completed ∧
      (((kill_children env depth st args retry).2.2
          = (List.range k).map (fun i => LogEvent.killRetryInfo (retry - (i : Nat))) ∧
        (kill_children env depth st args retry).1._process_map = [])
      ∨
      ((kill_children env depth st args retry).2.2
          = (List.range k).map (fun i => LogEvent.killRetryInfo (retry - (i : Nat)))
            ++ [LogEvent.killFailWarning ((kill_children env depth st args retry).1._process_map.map Prod.fst)] ∧
        (kill_children env depth st args retry).1._process_map ≠ [] ∧
        k = (retry + 1).toNat)) :=
  ⟨rfl, kill_children_owner_aux env args (retry + 1).toNat retry rfl depth st h1 h2⟩

/-- C7 witness: for the owner of a fresh (empty) supervisor, every pass
finds no survivors: the run completes with no retry records. -/
theorem kill_children_retry_witness :
    kill_children_default ⟨false, true, 1, fun _ _ => false⟩
        (newProcessManager 1 PyHandler.pyNone 1) []
      = kill_children ⟨false, true, 1, fun _ _ => false⟩ 0
          (newProcessManager 1 PyHandler.pyNone 1) [] 3 ∧
    ∃ k : Nat, k ≤ ((3 : Int) + 1).toNat ∧
      (kill_children ⟨false, true, 1, fun _ _ => false⟩ 0
          (newProcessManager 1 PyHandler.pyNone 1) [] 3).2.1 = KillOutcome.completed ∧
      (((kill_children ⟨false, true, 1, fun _ _ => false⟩ 0
            (newProcessManager 1 PyHandler.pyNone 1) [] 3).2.2
          = (List.range k).map (fun i => LogEvent.killRetryInfo ((3 : Int) - (i : Nat))) ∧
        (kill_children ⟨false, true, 1, fun _ _ => false⟩ 0
            (newProcessManager 1 PyHandler.pyNone 1) [] 3).1._process_map = [])
      ∨
      ((kill_children ⟨false, true, 1, fun _ _ => false⟩ 0
            (newProcessManager 1 PyHandler.pyNone 1) [] 3).2.2
          = (List.range k).map (fun i => LogEvent.killRetryInfo ((3 : Int) - (i : Nat)))
            ++ [LogEvent.killFailWarning ((kill_children ⟨false, true, 1, fun _ _ => false⟩ 0
                  (newProcessManager 1 PyHandler.pyNone 1) [] 3).1._process_map.map Prod.fst)] ∧
        (kill_children ⟨false, true, 1, fun _ _ => false⟩ 0
            (newProcessManager 1 PyHandler.pyNone 1) [] 3).1._process_map ≠ [] ∧
        k = ((3 : Int) + 1).toNat)) :=
  kill_children_retry_spec ⟨false, true, 1, fun _ _ => false⟩
    (newProcessManager 1 PyHandler.pyNone 1) [] 3 0 (by decide) (by decide)

end SaltProcess
